import Mathlib

/-!
Verification of the table-reconciliation core of
`src/ug_to_wp/compare_to_wikipedia.py`.

The Python routine `compare_data(ug_data, wp_data)` compares two pandas
DataFrames cell by cell and returns two boolean DataFrames
(`cmp_data`, `cmp_data_fuzzy`).  We embed the routine shallowly:

* a pandas DataFrame becomes a `DataFrame α` (ordered row labels, ordered
  column labels, and a cell function);
* a missing value (NaN) becomes `none`;
* the external libraries used on strings (the `mwparserfromhell`
  `strip_code`, `str.lower`, `str.casefold`, `unidecode`) are opaque to
  the repository, so they are carried as an explicit record `ExtLib` of
  string functions; concrete evaluations instantiate it with `extPlain`,
  their restriction to markup-free ASCII input;
* the two Python exceptions the routine can produce (`ValueError`
  re-raised by the label check at lines 311-320, `TypeError` from
  `nan + str` at line 353-354) become an `Except PyError` result;
* the double loop of lines 326-402 becomes a `foldlM` over the list of
  (row, column) pairs acting on a `RunState` holding all four tables, so
  that mutation (which table is written where) stays visible.
-/

/-- The exceptions `compare_data` can raise: `valueError` models the
pandas `ValueError` from comparing differently-labeled DataFrames
(the `StructuralMismatch` of the spec), `typeError` models the `TypeError`
from concatenating a NaN with a suffix string. -/
inductive PyError where
  | valueError : PyError
  | typeError : PyError
deriving DecidableEq

/-- Decidable equality for `Except` results with decidable components. -/
instance {ε α : Type} [DecidableEq ε] [DecidableEq α] :
    DecidableEq (Except ε α) := fun x y =>
  match x, y with
  | .ok a, .ok b =>
    if h : a = b then .isTrue (by rw [h])
    else .isFalse (fun hh => h (by injection hh))
  | .error a, .error b =>
    if h : a = b then .isTrue (by rw [h])
    else .isFalse (fun hh => h (by injection hh))
  | .ok _, .error _ => .isFalse (fun hh => by injection hh)
  | .error _, .ok _ => .isFalse (fun hh => by injection hh)

/-- Python `str.strip()`: remove leading and trailing whitespace. -/
def pyStrip (s : String) : String :=
  ⟨((s.data.dropWhile Char.isWhitespace).reverse.dropWhile Char.isWhitespace).reverse⟩

/-- Python `str.replace(pat, repl)` on lists of characters: replace all
non-overlapping occurrences left to right.  An empty pattern leaves the
string unchanged (the source only ever replaces non-empty keys).  The
first argument is recursion fuel; one unit is spent per character
consumed, so fuel equal to the string length always suffices. -/
def replaceFuel (pat repl : List Char) : Nat → List Char → List Char
  | 0, s => s
  | _ + 1, [] => []
  | n + 1, c :: cs =>
    if pat ≠ [] ∧ pat.isPrefixOf (c :: cs) then
      repl ++ replaceFuel pat repl n (cs.drop (pat.length - 1))
    else
      c :: replaceFuel pat repl n cs

/-- Python `s.replace(pat, repl)` on strings. -/
def pyReplace (s pat repl : String) : String :=
  ⟨replaceFuel pat.data repl.data s.data.length s.data⟩

/-- Substring containment on lists of characters. -/
def listInfix (needle : List Char) : List Char → Bool
  | [] => needle.isEmpty
  | c :: cs => needle.isPrefixOf (c :: cs) || listInfix needle cs

/-- Python `needle in hay` for strings: substring containment. -/
def strIn (needle hay : String) : Bool :=
  listInfix needle.data hay.data

/-- The external string libraries used by `compare_data` that are not part
of this repository: `mwparserfromhell.parse(...).strip_code()`,
`str.lower`, `str.casefold` and `unidecode.unidecode`. -/
structure ExtLib where
  strip_code : String → String
  lower : String → String
  casefold : String → String
  unidecode : String → String

/-- Python `str.lower` (also `str.casefold`) restricted to ASCII input:
map the letters A-Z to lowercase, leave every other character alone. -/
def asciiLowerChar (c : Char) : Char :=
  if 65 ≤ c.toNat ∧ c.toNat ≤ 90 then Char.ofNat (c.toNat + 32) else c

/-- ASCII lower-casing of a string. -/
def asciiLower (s : String) : String :=
  ⟨s.data.map asciiLowerChar⟩

/-- The external libraries restricted to markup-free ASCII input, on which
`strip_code` and `unidecode` are the identity and `lower` and `casefold`
are both ASCII lower-casing.  Used to evaluate concrete ASCII cases. -/
def extPlain : ExtLib :=
  { strip_code := fun s => s
    lower := asciiLower
    casefold := asciiLower
    unidecode := fun s => s }

/-- The suffix list of lines 344-352 of the source. -/
def wp_suffixes : List String :=
  [" (country)", " (ciudad)", " (pays)", " (city-state)",
   " (Stadt)", " (stadt)", " (ville)", " (by)"]

/-- The ordered substitution table of lines 372-376 of the source
(backquote and apostrophe written by code point to keep the text plain). -/
def substitutions : List (String × String) :=
  [("saint", "st"), (".", ""), ("-", " "),
   (String.singleton (Char.ofNat 96), String.singleton (Char.ofNat 39))]

/-- The per-string substitution pass of lines 378-384 (equally 387-393):
for each (key, value) in table order, if the key occurs, replace it. -/
def applySubsts (w : String) : String :=
  substitutions.foldl
    (fun acc kv => if strIn kv.1 acc then pyReplace acc kv.1 kv.2 else acc) w

/-- Fuzzy candidate generation of lines 363-370 plus the substitution
pass: lower-cased and case-folded variants, then those again
diacritic-stripped, then each rewritten by the substitution table. -/
def fuzzyCandidates (e : ExtLib) (texts : List String) : List String :=
  let base := texts.map e.lower ++ texts.map e.casefold
  let base2 := base ++ base.map e.unidecode
  base2.map applySubsts

/-- The scraped-value candidate list of lines 338-343: the raw wikicode
(whose string form is the raw text), the code-stripped text, and its
whitespace-trimmed form. -/
def wpTexts (e : ExtLib) (w : String) : List String :=
  [w, e.strip_code w, pyStrip (e.strip_code w)]

/-- The reference-value candidate expansion of lines 353-354: the value
itself plus the value with each disambiguation suffix appended. -/
def expandUg (u : String) : List String :=
  u :: wp_suffixes.map (fun sfx => u ++ sfx)

/-- The exact tier of line 357: some expanded reference candidate is
equal to some scraped plain-text candidate. -/
def exactTier (e : ExtLib) (u w : String) : Bool :=
  (expandUg u).any (fun s => (wpTexts e w).contains s)

/-- The fuzzy tier of line 397: some fuzzy-normalized reference candidate
occurs as a substring of some fuzzy-normalized scraped candidate. -/
def fuzzyTier (e : ExtLib) (u w : String) : Bool :=
  (fuzzyCandidates e (expandUg u)).any
    (fun s => (fuzzyCandidates e (wpTexts e w)).any (fun t => strIn s t))

/-- pandas element-wise `==` on object cells (line 312): two NaNs are not
equal, a NaN never equals a string, strings compare by equality. -/
def simpleMatch : Option String → Option String → Bool
  | some a, some b => a == b
  | _, _ => false

/-- A pandas DataFrame with optional values: ordered row labels, ordered
column labels, and a cell lookup keyed (row, column). -/
structure DataFrame (α : Type) where
  index : List String
  columns : List String
  cells : String → String → α

/-- The mutable state of `compare_data` after line 323: the two input
tables and the two output tables (both initialized to the element-wise
equality table; `.copy()` makes them independent). -/
structure RunState where
  ug_data : DataFrame (Option String)
  wp_data : DataFrame (Option String)
  cmp_data : DataFrame Bool
  cmp_data_fuzzy : DataFrame Bool

/-- Write one cell of a cell function. -/
def setCell {α : Type} (f : String → String → α) (c k : String) (b : α) :
    String → String → α :=
  fun c2 k2 => if c2 = c ∧ k2 = k then b else f c2 k2

/-- The if/elif chain of lines 329-398 for one cell, given the raw cell
values and the current cell values of the two output tables.  Returns the
new (strict, fuzzy) cell pair, or the `TypeError` raised at line 353-354
when the reference value is NaN and the scraped value is present. -/
def cellStep1 (e : ExtLib) (ugv wpv : Option String) (cmp0 fuzzy0 : Bool) :
    Except PyError (Bool × Bool) :=
  match wpv, ugv with
  | none, none => .ok (true, fuzzy0)
  | some w, ugOpt =>
    if cmp0 then .ok (cmp0, fuzzy0)
    else
      match ugOpt with
      | none => .error PyError.typeError
      | some u =>
        if exactTier e u w then .ok (true, fuzzy0)
        else if fuzzyTier e u w then .ok (cmp0, true)
        else .ok (cmp0, fuzzy0)
  | none, some _ => .ok (cmp0, fuzzy0)

/-- Lines 400-402: make the fuzzy table a superset of the strict table at
the visited cell. -/
def supersetStep : Bool × Bool → Bool × Bool
  | (b1, b2) => (b1, if b1 then true else b2)

/-- The full loop body of lines 329-402 for one cell. -/
def cellOutcome (e : ExtLib) (ugv wpv : Option String) (cmp0 fuzzy0 : Bool) :
    Except PyError (Bool × Bool) :=
  (cellStep1 e ugv wpv cmp0 fuzzy0).map supersetStep

/-- The result of the loop body for a cell processed for the first time,
when both output cells still hold the element-wise equality value. -/
def cellFinal (e : ExtLib) (ugv wpv : Option String) :
    Except PyError (Bool × Bool) :=
  cellOutcome e ugv wpv (simpleMatch ugv wpv) (simpleMatch ugv wpv)

/-- One iteration of the double loop acting on the run state: read the
cell values, run the loop body, write the visited cell of the two output
tables. -/
def cellBodyS (e : ExtLib) (rs : RunState) (p : String × String) :
    Except PyError RunState :=
  match cellOutcome e (rs.ug_data.cells p.1 p.2) (rs.wp_data.cells p.1 p.2)
      (rs.cmp_data.cells p.1 p.2) (rs.cmp_data_fuzzy.cells p.1 p.2) with
  | .error err => .error err
  | .ok (b1, b2) =>
      .ok { rs with
        cmp_data :=
          { rs.cmp_data with
            cells := setCell rs.cmp_data.cells p.1 p.2 b1 }
        cmp_data_fuzzy :=
          { rs.cmp_data_fuzzy with
            cells := setCell rs.cmp_data_fuzzy.cells p.1 p.2 b2 } }

/-- The iteration order of the double loop of lines 326-327: rows outer,
columns inner. -/
def cellList : List String → List String → List (String × String)
  | [], _ => []
  | c :: cs, cols => cols.map (fun k => (c, k)) ++ cellList cs cols

/-- Lines 312-323: the element-wise equality table and its two copies. -/
def initRunState (ug wp : DataFrame (Option String)) : RunState :=
  let simple : DataFrame Bool :=
    { index := ug.index
      columns := ug.columns
      cells := fun c k => simpleMatch (ug.cells c k) (wp.cells c k) }
  { ug_data := ug, wp_data := wp, cmp_data := simple, cmp_data_fuzzy := simple }

/-- The double loop of lines 326-402 over the run state. -/
def compareRun (e : ExtLib) (ug wp : DataFrame (Option String)) :
    Except PyError RunState :=
  (cellList ug.index ug.columns).foldlM (cellBodyS e) (initRunState ug wp)

/-- The function `compare_data` of lines 302-407: pandas raises a `ValueError` when the
two DataFrames are not identically labeled (caught and re-raised at lines
311-320), otherwise the loop runs and the two output tables are
returned. -/
def compare_data (e : ExtLib) (ug wp : DataFrame (Option String)) :
    Except PyError (DataFrame Bool × DataFrame Bool) :=
  if ug.index = wp.index ∧ ug.columns = wp.columns then
    (compareRun e ug wp).map (fun rs => (rs.cmp_data, rs.cmp_data_fuzzy))
  else
    .error PyError.valueError

/-- Project one cell out of the result of `compare_data`. -/
def outCells (r : Except PyError (DataFrame Bool × DataFrame Bool))
    (c k : String) : Except PyError (Bool × Bool) :=
  r.map (fun p => (p.1.cells c k, p.2.cells c k))

/-- A one-row one-column DataFrame holding one value. -/
def oneCellDf (v : Option String) : DataFrame (Option String) :=
  { index := ["r"], columns := ["k"], cells := fun _ _ => v }

/-- Run `compare_data` on a pair of one-cell tables and project the cell. -/
def runCell (e : ExtLib) (u w : Option String) : Except PyError (Bool × Bool) :=
  outCells (compare_data e (oneCellDf u) (oneCellDf w)) "r" "k"

/-- The classification of line 235-236 of `print_summary`: a cell counted
as having no Wikipedia data. -/
def countedNoWp (cmpv : Bool) (wpv : Option String) : Bool :=
  !cmpv && wpv.isNone

/-- The classification of lines 260-261 of `print_summary`: a cell counted
as a mismatch. -/
def countedMismatch (cmpv fuzzyv : Bool) (wpv : Option String) : Bool :=
  !(fuzzyv || cmpv) && wpv.isSome

/-! ### Helper lemmas about `Except` and `foldlM` -/

theorem except_bind_ok {ε α β : Type} (x : Except ε α) (g : α → Except ε β)
    (b : β) :
    (x >>= g) = Except.ok b ↔ ∃ a, x = Except.ok a ∧ g a = Except.ok b := by
  cases x <;> simp [Bind.bind, Except.bind]

theorem except_map_ok {ε α β : Type} (f : α → β) (x : Except ε α) (b : β) :
    x.map f = Except.ok b ↔ ∃ a, x = Except.ok a ∧ f a = b := by
  cases x <;> simp [Except.map]

theorem foldlM_split {ε α β : Type} (f : β → α → Except ε β) (p : α) :
    ∀ (l1 : List α) (l2 : List α) (init fin : β),
    (l1 ++ p :: l2).foldlM f init = Except.ok fin →
    ∃ mid mid2, l1.foldlM f init = Except.ok mid ∧ f mid p = Except.ok mid2 ∧
      l2.foldlM f mid2 = Except.ok fin := by
  intro l1
  induction l1 with
  | nil =>
    intro l2 init fin h
    simp only [List.nil_append, List.foldlM_cons] at h
    rw [except_bind_ok] at h
    obtain ⟨mid2, h1, h2⟩ := h
    exact ⟨init, mid2, rfl, h1, h2⟩
  | cons a l ih =>
    intro l2 init fin h
    simp only [List.cons_append, List.foldlM_cons] at h
    rw [except_bind_ok] at h
    obtain ⟨b, hb, h2⟩ := h
    obtain ⟨mid, mid2, hm1, hm2, hm3⟩ := ih l2 b fin h2
    refine ⟨mid, mid2, ?_, hm2, hm3⟩
    simp [List.foldlM_cons, hb, Bind.bind, Except.bind, hm1]

theorem foldlM_inv {ε α β : Type} (P : β → Prop) (f : β → α → Except ε β) :
    ∀ (l : List α) (init fin : β),
    (∀ b a b2, a ∈ l → f b a = Except.ok b2 → P b → P b2) →
    l.foldlM f init = Except.ok fin → P init → P fin := by
  intro l
  induction l with
  | nil =>
    intro init fin _ h h0
    simp only [List.foldlM_nil] at h
    injection h with h
    rwa [← h]
  | cons a l ih =>
    intro init fin hstep h h0
    simp only [List.foldlM_cons] at h
    rw [except_bind_ok] at h
    obtain ⟨b, hb, h2⟩ := h
    exact ih b fin
      (fun b1 a1 b3 ha hf hp => hstep b1 a1 b3 (List.mem_cons_of_mem _ ha) hf hp)
      h2 (hstep init a b (List.mem_cons_self a l) hb h0)

theorem foldlM_total {ε α β : Type} (P : β → Prop) (f : β → α → Except ε β) :
    ∀ (l : List α) (init : β),
    (∀ b a, a ∈ l → P b → ∃ b2, f b a = Except.ok b2 ∧ P b2) →
    P init → ∃ fin, l.foldlM f init = Except.ok fin ∧ P fin := by
  intro l
  induction l with
  | nil =>
    intro init _ h0
    exact ⟨init, rfl, h0⟩
  | cons a l ih =>
    intro init hstep h0
    obtain ⟨b, hb, hPb⟩ := hstep init a (List.mem_cons_self a l) h0
    obtain ⟨fin, hf, hPf⟩ :=
      ih b (fun b1 a1 ha => hstep b1 a1 (List.mem_cons_of_mem _ ha)) hPb
    exact ⟨fin, by simp [List.foldlM_cons, hb, Bind.bind, Except.bind, hf], hPf⟩

/-! ### Structure of one loop iteration -/

theorem cellBodyS_ok (e : ExtLib) (rs rs' : RunState) (p : String × String)
    (h : cellBodyS e rs p = Except.ok rs') :
    rs'.ug_data = rs.ug_data ∧ rs'.wp_data = rs.wp_data ∧
    ∃ b1 b2,
      cellOutcome e (rs.ug_data.cells p.1 p.2) (rs.wp_data.cells p.1 p.2)
        (rs.cmp_data.cells p.1 p.2) (rs.cmp_data_fuzzy.cells p.1 p.2) =
          Except.ok (b1, b2) ∧
      rs'.cmp_data.cells = setCell rs.cmp_data.cells p.1 p.2 b1 ∧
      rs'.cmp_data_fuzzy.cells = setCell rs.cmp_data_fuzzy.cells p.1 p.2 b2 := by
  unfold cellBodyS at h
  split at h
  · exact absurd h (by simp)
  · injection h with h
    subst h
    exact ⟨rfl, rfl, _, _, by assumption, rfl, rfl⟩

theorem run_inputs (e : ExtLib) (l : List (String × String)) (rs0 rs1 : RunState)
    (h : l.foldlM (cellBodyS e) rs0 = Except.ok rs1) :
    rs1.ug_data = rs0.ug_data ∧ rs1.wp_data = rs0.wp_data :=
  foldlM_inv (fun rs => rs.ug_data = rs0.ug_data ∧ rs.wp_data = rs0.wp_data)
    (cellBodyS e) l rs0 rs1
    (fun b a b2 _ hf hp =>
      ⟨(cellBodyS_ok e b b2 a hf).1.trans hp.1,
       (cellBodyS_ok e b b2 a hf).2.1.trans hp.2⟩) h ⟨rfl, rfl⟩

theorem run_frame (e : ExtLib) (l : List (String × String)) (rs0 rs1 : RunState)
    (c k : String) (hnot : (c, k) ∉ l)
    (h : l.foldlM (cellBodyS e) rs0 = Except.ok rs1) :
    rs1.cmp_data.cells c k = rs0.cmp_data.cells c k ∧
    rs1.cmp_data_fuzzy.cells c k = rs0.cmp_data_fuzzy.cells c k := by
  refine foldlM_inv
    (fun rs => rs.cmp_data.cells c k = rs0.cmp_data.cells c k ∧
      rs.cmp_data_fuzzy.cells c k = rs0.cmp_data_fuzzy.cells c k)
    (cellBodyS e) l rs0 rs1 ?_ h ⟨rfl, rfl⟩
  intro b a b2 ha hf hp
  obtain ⟨_, _, b1, b2', hco, hcc, hfc⟩ := cellBodyS_ok e b b2 a hf
  have hne : ¬(c = a.1 ∧ k = a.2) := by
    rintro ⟨rfl, rfl⟩
    exact hnot ha
  rw [hcc, hfc]
  simp only [setCell, if_neg hne]
  exact hp

/-! ### The cell list of the double loop -/

theorem mem_cellList (c k : String) (rows cols : List String) :
    (c, k) ∈ cellList rows cols ↔ c ∈ rows ∧ k ∈ cols := by
  induction rows with
  | nil => simp [cellList]
  | cons r rest ih =>
    simp only [cellList, List.mem_append, List.mem_map, ih, List.mem_cons,
      Prod.mk.injEq]
    constructor
    · rintro (⟨k2, hk2, rfl, rfl⟩ | ⟨hc, hk⟩)
      · exact ⟨Or.inl rfl, hk2⟩
      · exact ⟨Or.inr hc, hk⟩
    · rintro ⟨rfl | hc, hk⟩
      · exact Or.inl ⟨k, hk, rfl, rfl⟩
      · exact Or.inr ⟨hc, hk⟩

theorem nodup_cellList (rows cols : List String)
    (h1 : rows.Nodup) (h2 : cols.Nodup) : (cellList rows cols).Nodup := by
  induction rows with
  | nil => simp [cellList]
  | cons r rest ih =>
    simp only [cellList]
    rw [List.nodup_append]
    refine ⟨h2.map (fun a b hab => by injection hab), ih (List.nodup_cons.mp h1).2, ?_⟩
    intro p hp1 hp2
    obtain ⟨k2, hk2, rfl⟩ := List.mem_map.mp hp1
    have := (mem_cellList r k2 rest cols).mp hp2
    exact (List.nodup_cons.mp h1).1 this.1

/-! ### Per-cell characterization of `compare_data` -/

theorem compare_cell_spec (e : ExtLib) (ug wp : DataFrame (Option String))
    (c k : String) (sb fb : Bool)
    (hI : ug.index.Nodup) (hK : ug.columns.Nodup)
    (hc : c ∈ ug.index) (hk : k ∈ ug.columns)
    (h : outCells (compare_data e ug wp) c k = Except.ok (sb, fb)) :
    cellFinal e (ug.cells c k) (wp.cells c k) = Except.ok (sb, fb) := by
  rw [outCells, except_map_ok] at h
  obtain ⟨pr, hcd, hpr⟩ := h
  rw [compare_data] at hcd
  split at hcd
  case isFalse => exact absurd hcd (by simp)
  case isTrue hlbl =>
    rw [except_map_ok] at hcd
    obtain ⟨rs, hrun, hrs⟩ := hcd
    subst hrs
    have hmem : (c, k) ∈ cellList ug.index ug.columns :=
      (mem_cellList c k ug.index ug.columns).mpr ⟨hc, hk⟩
    obtain ⟨l1, l2, hsplit⟩ := List.append_of_mem hmem
    have hnodup := nodup_cellList ug.index ug.columns hI hK
    rw [hsplit] at hnodup
    rw [compareRun, hsplit] at hrun
    have hd := List.nodup_append.mp hnodup
    have hnotl1 : (c, k) ∉ l1 := fun hin =>
      (hd.2.2 hin (List.mem_cons_self _ _))
    have hnotl2 : (c, k) ∉ l2 := (List.nodup_cons.mp hd.2.1).1
    obtain ⟨mid, mid2, hm1, hm2, hm3⟩ :=
      foldlM_split (cellBodyS e) (c, k) l1 l2 _ _ hrun
    have hmidin := run_inputs e l1 _ mid hm1
    have hmidfr := run_frame e l1 _ mid c k hnotl1 hm1
    obtain ⟨hug2, hwp2, b1, b2, hco, hcc, hfc⟩ := cellBodyS_ok e mid mid2 (c, k) hm2
    have hlast := run_frame e l2 mid2 rs c k hnotl2 hm3
    have hugv : mid.ug_data.cells c k = ug.cells c k := by
      rw [hmidin.1]; rfl
    have hwpv : mid.wp_data.cells c k = wp.cells c k := by
      rw [hmidin.2]; rfl
    have hcmp0 : mid.cmp_data.cells c k
        = simpleMatch (ug.cells c k) (wp.cells c k) := hmidfr.1
    have hfz0 : mid.cmp_data_fuzzy.cells c k
        = simpleMatch (ug.cells c k) (wp.cells c k) := hmidfr.2
    rw [hugv, hwpv, hcmp0, hfz0] at hco
    have hmid2c : mid2.cmp_data.cells c k = b1 := by
      rw [hcc]; simp [setCell]
    have hmid2f : mid2.cmp_data_fuzzy.cells c k = b2 := by
      rw [hfc]; simp [setCell]
    have hsb : sb = b1 := by
      have h1 := congrArg Prod.fst hpr
      dsimp at h1
      rw [← h1, hlast.1, hmid2c]
    have hfb : fb = b2 := by
      have h1 := congrArg Prod.snd hpr
      dsimp at h1
      rw [← h1, hlast.2, hmid2f]
    rw [cellFinal, hsb, hfb]
    exact hco

/-! ### Small computation lemmas -/

theorem cellOutcome_ok_superset (e : ExtLib) (ugv wpv : Option String)
    (c0 f0 b1 b2 : Bool)
    (h : cellOutcome e ugv wpv c0 f0 = Except.ok (b1, b2)) (hb : b1 = true) :
    b2 = true := by
  rw [cellOutcome, except_map_ok] at h
  obtain ⟨⟨q1, q2⟩, _, hq⟩ := h
  simp only [supersetStep] at hq
  injection hq with h1 h2
  subst h1
  subst hb
  simpa using h2.symm

theorem exactTier_self (e : ExtLib) (u : String) : exactTier e u u = true := by
  simp [exactTier, expandUg, wpTexts]

theorem simpleMatch_ne (u w : String) (hne : u ≠ w) :
    simpleMatch (some u) (some w) = false := by
  simp [simpleMatch, hne]

/-! ### Claim theorems -/

/-- C1: for every pair of tables and every cell, whenever `compare_data`
succeeds, the fuzzy output table is true at every cell where the strict
output table is true (the fuzzy result is a pointwise superset of the
strict result). -/
theorem compare_fuzzy_superset_strict (e : ExtLib)
    (ug wp : DataFrame (Option String)) (c k : String) (sb fb : Bool)
    (h : outCells (compare_data e ug wp) c k = Except.ok (sb, fb))
    (hsb : sb = true) : fb = true := by
  rw [outCells, except_map_ok] at h
  obtain ⟨pr, hcd, hpr⟩ := h
  rw [compare_data] at hcd
  split at hcd
  case isFalse => exact absurd hcd (by simp)
  case isTrue hlbl =>
    rw [except_map_ok] at hcd
    obtain ⟨rs, hrun, hrs⟩ := hcd
    subst hrs
    have hinv : ∀ c2 k2, rs.cmp_data.cells c2 k2 = true →
        rs.cmp_data_fuzzy.cells c2 k2 = true := by
      refine foldlM_inv
        (fun st => ∀ c2 k2, st.cmp_data.cells c2 k2 = true →
          st.cmp_data_fuzzy.cells c2 k2 = true)
        (cellBodyS e) (cellList ug.index ug.columns) (initRunState ug wp) rs
        ?_ hrun (fun c2 k2 hcc => hcc)
      intro b a b2 _ hf hp c2 k2 hcc
      obtain ⟨_, _, b1, b2', hco, hc2, hf2⟩ := cellBodyS_ok e b b2 a hf
      rw [hc2] at hcc
      rw [hf2]
      simp only [setCell] at hcc ⊢
      by_cases hck : c2 = a.1 ∧ k2 = a.2
      · rw [if_pos hck] at hcc ⊢
        exact cellOutcome_ok_superset e _ _ _ _ b1 b2' hco hcc
      · rw [if_neg hck] at hcc ⊢
        exact hp c2 k2 hcc
    have h1 := congrArg Prod.fst hpr
    have h2 := congrArg Prod.snd hpr
    dsimp at h1 h2
    rw [← h2]
    exact hinv c k (h1.trans hsb)

/-- Witness for C1 on a concrete one-cell pair of equal tables. -/
theorem compare_fuzzy_superset_strict_w :
    outCells (compare_data extPlain (oneCellDf (some "a")) (oneCellDf (some "a")))
        "r" "k" = Except.ok (true, true) ∧ (true : Bool) = true :=
  ⟨by decide,
   compare_fuzzy_superset_strict extPlain (oneCellDf (some "a"))
     (oneCellDf (some "a")) "r" "k" true true (by decide) rfl⟩

/-- C4: a cell where both the reference and the scraped value are absent
gets true in both output tables. -/
theorem compare_both_absent_match (e : ExtLib)
    (ug wp : DataFrame (Option String)) (c k : String) (sb fb : Bool)
    (hI : ug.index.Nodup) (hK : ug.columns.Nodup)
    (hc : c ∈ ug.index) (hk : k ∈ ug.columns)
    (hu : ug.cells c k = none) (hw : wp.cells c k = none)
    (h : outCells (compare_data e ug wp) c k = Except.ok (sb, fb)) :
    sb = true ∧ fb = true := by
  have hcf := compare_cell_spec e ug wp c k sb fb hI hK hc hk h
  rw [hu, hw] at hcf
  have hval : cellFinal e none none = Except.ok (true, true) := rfl
  rw [hval] at hcf
  injection hcf with h1
  injection h1 with h2 h3
  exact ⟨h2.symm, h3.symm⟩

/-- Witness for C4 on a concrete one-cell pair of empty tables. -/
theorem compare_both_absent_match_w :
    outCells (compare_data extPlain (oneCellDf none) (oneCellDf none))
        "r" "k" = Except.ok (true, true) ∧ ((true : Bool) = true ∧ (true : Bool) = true) :=
  ⟨by decide,
   compare_both_absent_match extPlain (oneCellDf none) (oneCellDf none)
     "r" "k" true true (by decide) (by decide) (by decide) (by decide)
     rfl rfl (by decide)⟩

/-- C5: a cell with the reference value present and the scraped value
absent gets false in both output tables, and `print_summary` counts it as
missing Wikipedia data, not as a mismatch. -/
theorem compare_missing_source (e : ExtLib)
    (ug wp : DataFrame (Option String)) (c k u : String) (sb fb : Bool)
    (hI : ug.index.Nodup) (hK : ug.columns.Nodup)
    (hc : c ∈ ug.index) (hk : k ∈ ug.columns)
    (hu : ug.cells c k = some u) (hw : wp.cells c k = none)
    (h : outCells (compare_data e ug wp) c k = Except.ok (sb, fb)) :
    sb = false ∧ fb = false ∧
    countedNoWp sb (wp.cells c k) = true ∧
    countedMismatch sb fb (wp.cells c k) = false := by
  have hcf := compare_cell_spec e ug wp c k sb fb hI hK hc hk h
  rw [hu, hw] at hcf
  have hval : cellFinal e (some u) none = Except.ok (false, false) := rfl
  rw [hval] at hcf
  injection hcf with h1
  injection h1 with h2 h3
  rw [← h2, ← h3, hw]
  exact ⟨rfl, rfl, rfl, rfl⟩

/-- Witness for C5 on the Egypt example of the spec. -/
theorem compare_missing_source_w :
    outCells (compare_data extPlain (oneCellDf (some "Egypt")) (oneCellDf none))
        "r" "k" = Except.ok (false, false) ∧
    ((false : Bool) = false ∧ (false : Bool) = false ∧
      countedNoWp false ((oneCellDf none).cells "r" "k") = true ∧
      countedMismatch false false ((oneCellDf none).cells "r" "k") = false) :=
  ⟨by decide,
   compare_missing_source extPlain (oneCellDf (some "Egypt")) (oneCellDf none)
     "r" "k" "Egypt" false false (by decide) (by decide) (by decide) (by decide)
     rfl rfl (by decide)⟩

/-- C10: a cell whose raw reference and scraped values are equal strings
gets true in both output tables: the initial exact-equality result is
never downgraded. -/
theorem compare_raw_equal_both_true (e : ExtLib)
    (ug wp : DataFrame (Option String)) (c k s : String) (sb fb : Bool)
    (hI : ug.index.Nodup) (hK : ug.columns.Nodup)
    (hc : c ∈ ug.index) (hk : k ∈ ug.columns)
    (hu : ug.cells c k = some s) (hw : wp.cells c k = some s)
    (h : outCells (compare_data e ug wp) c k = Except.ok (sb, fb)) :
    sb = true ∧ fb = true := by
  have hcf := compare_cell_spec e ug wp c k sb fb hI hK hc hk h
  rw [hu, hw] at hcf
  have hval : cellFinal e (some s) (some s) = Except.ok (true, true) := by
    simp [cellFinal, cellOutcome, cellStep1, simpleMatch, supersetStep, Except.map]
  rw [hval] at hcf
  injection hcf with h1
  injection h1 with h2 h3
  exact ⟨h2.symm, h3.symm⟩

/-- Witness for C10 on a concrete equal pair. -/
theorem compare_raw_equal_both_true_w :
    outCells (compare_data extPlain (oneCellDf (some "Cairo")) (oneCellDf (some "Cairo")))
        "r" "k" = Except.ok (true, true) ∧ ((true : Bool) = true ∧ (true : Bool) = true) :=
  ⟨by decide,
   compare_raw_equal_both_true extPlain (oneCellDf (some "Cairo"))
     (oneCellDf (some "Cairo")) "r" "k" "Cairo" true true (by decide) (by decide)
     (by decide) (by decide) rfl rfl (by decide)⟩

/-- The loop body at a cell with both values present and raw equality
failed: the exact tier decides the strict flag, then the fuzzy tier
decides the fuzzy flag. -/
theorem cellFinal_both_present (e : ExtLib) (u w : String) (hne : u ≠ w) :
    cellFinal e (some u) (some w) =
      if exactTier e u w then Except.ok (true, true)
      else if fuzzyTier e u w then Except.ok (false, true)
      else Except.ok (false, false) := by
  unfold cellFinal
  rw [simpleMatch_ne u w hne]
  by_cases hET : exactTier e u w = true
  · simp [cellOutcome, cellStep1, hET, supersetStep, Except.map]
  · by_cases hFT : fuzzyTier e u w = true
    · simp [cellOutcome, cellStep1, hET, hFT, supersetStep, Except.map]
    · simp [cellOutcome, cellStep1, hET, hFT, supersetStep, Except.map]

/-- C2: at a cell with both values present whose raw equality test fails,
the strict flag equals the exact tier: some suffix-expanded reference
candidate is string-equal to some plain-text scraped candidate; in
particular reference "Bolivia" against scraped "Bolivia (country)" gets a
true strict flag. -/
theorem compare_strict_iff_exact (e : ExtLib)
    (ug wp : DataFrame (Option String)) (c k u w : String) (sb fb : Bool)
    (hI : ug.index.Nodup) (hK : ug.columns.Nodup)
    (hc : c ∈ ug.index) (hk : k ∈ ug.columns)
    (hu : ug.cells c k = some u) (hw : wp.cells c k = some w)
    (hne : u ≠ w)
    (h : outCells (compare_data e ug wp) c k = Except.ok (sb, fb)) :
    sb = exactTier e u w ∧
    runCell extPlain (some "Bolivia") (some "Bolivia (country)") =
      Except.ok (true, true) := by
  have hcf := compare_cell_spec e ug wp c k sb fb hI hK hc hk h
  rw [hu, hw, cellFinal_both_present e u w hne] at hcf
  refine ⟨?_, by decide⟩
  by_cases hET : exactTier e u w = true
  · rw [if_pos hET] at hcf
    injection hcf with h1
    injection h1 with h2 h3
    rw [← h2, hET]
  · rw [if_neg hET] at hcf
    rw [Bool.not_eq_true] at hET
    rw [hET]
    by_cases hFT : fuzzyTier e u w = true
    · rw [if_pos hFT] at hcf
      injection hcf with h1
      injection h1 with h2 h3
      exact h2.symm
    · rw [if_neg hFT] at hcf
      injection hcf with h1
      injection h1 with h2 h3
      exact h2.symm

/-- Witness for C2 on the Bolivia example of the spec. -/
theorem compare_strict_iff_exact_w :
    outCells (compare_data extPlain (oneCellDf (some "Bolivia"))
        (oneCellDf (some "Bolivia (country)"))) "r" "k" = Except.ok (true, true) ∧
    (true = exactTier extPlain "Bolivia" "Bolivia (country)" ∧
      runCell extPlain (some "Bolivia") (some "Bolivia (country)") =
        Except.ok (true, true)) :=
  ⟨by decide,
   compare_strict_iff_exact extPlain (oneCellDf (some "Bolivia"))
     (oneCellDf (some "Bolivia (country)")) "r" "k" "Bolivia" "Bolivia (country)"
     true true (by decide) (by decide) (by decide) (by decide) rfl rfl
     (by decide) (by decide)⟩

/-- C3: at a cell with both values present where the exact tier fails, the
fuzzy flag equals the fuzzy tier: some fuzzy-normalized reference
candidate occurs as a substring of some fuzzy-normalized scraped
candidate (containment of reference in scraped); in particular reference
"St. Petersburg" against scraped "Saint Petersburg" gets strict false and
fuzzy true. -/
theorem compare_fuzzy_iff_contained (e : ExtLib)
    (ug wp : DataFrame (Option String)) (c k u w : String) (sb fb : Bool)
    (hI : ug.index.Nodup) (hK : ug.columns.Nodup)
    (hc : c ∈ ug.index) (hk : k ∈ ug.columns)
    (hu : ug.cells c k = some u) (hw : wp.cells c k = some w)
    (hET : exactTier e u w = false)
    (h : outCells (compare_data e ug wp) c k = Except.ok (sb, fb)) :
    sb = false ∧ fb = fuzzyTier e u w ∧
    runCell extPlain (some "St. Petersburg") (some "Saint Petersburg") =
      Except.ok (false, true) := by
  have hne : u ≠ w := by
    intro he
    rw [he, exactTier_self] at hET
    cases hET
  have hcf := compare_cell_spec e ug wp c k sb fb hI hK hc hk h
  rw [hu, hw, cellFinal_both_present e u w hne, if_neg (by simp [hET])] at hcf
  refine ⟨?_, ?_, by decide⟩
  · by_cases hFT : fuzzyTier e u w = true
    · rw [if_pos hFT] at hcf
      injection hcf with h1
      injection h1 with h2 h3
      exact h2.symm
    · rw [if_neg hFT] at hcf
      injection hcf with h1
      injection h1 with h2 h3
      exact h2.symm
  · by_cases hFT : fuzzyTier e u w = true
    · rw [if_pos hFT] at hcf
      injection hcf with h1
      injection h1 with h2 h3
      rw [← h3, hFT]
    · rw [if_neg hFT] at hcf
      injection hcf with h1
      injection h1 with h2 h3
      rw [Bool.not_eq_true] at hFT
      rw [hFT, ← h3]

/-- Witness for C3 on the St. Petersburg example of the spec. -/
theorem compare_fuzzy_iff_contained_w :
    outCells (compare_data extPlain (oneCellDf (some "St. Petersburg"))
        (oneCellDf (some "Saint Petersburg"))) "r" "k" = Except.ok (false, true) ∧
    (false = (false : Bool) ∧
      true = fuzzyTier extPlain "St. Petersburg" "Saint Petersburg" ∧
      runCell extPlain (some "St. Petersburg") (some "Saint Petersburg") =
        Except.ok (false, true)) :=
  ⟨by decide,
   compare_fuzzy_iff_contained extPlain (oneCellDf (some "St. Petersburg"))
     (oneCellDf (some "Saint Petersburg")) "r" "k" "St. Petersburg"
     "Saint Petersburg" false true (by decide) (by decide) (by decide)
     (by decide) rfl rfl (by decide) (by decide)⟩

/-- C6: two tables whose entity-key sets or attribute-key sets differ
make the element-wise comparison raise, so `compare_data` propagates the
error (the StructuralMismatch of the spec) and returns no output tables. -/
theorem compare_structural_mismatch (e : ExtLib)
    (ug wp : DataFrame (Option String))
    (hne : ug.index.toFinset ≠ wp.index.toFinset ∨
      ug.columns.toFinset ≠ wp.columns.toFinset) :
    compare_data e ug wp = Except.error PyError.valueError := by
  rw [compare_data, if_neg]
  rintro ⟨h1, h2⟩
  rcases hne with hne | hne
  · exact hne (by rw [h1])
  · exact hne (by rw [h2])

/-- Witness for C6 on two one-cell tables with different row labels. -/
theorem compare_structural_mismatch_w :
    (["r"] : List String).toFinset ≠ (["x"] : List String).toFinset ∧
    compare_data extPlain (oneCellDf none)
        (DataFrame.mk ["x"] ["k"] (fun _ _ => none)) =
      Except.error PyError.valueError :=
  ⟨by decide,
   compare_structural_mismatch extPlain (oneCellDf none)
     (DataFrame.mk ["x"] ["k"] (fun _ _ => none)) (Or.inl (by decide))⟩

/-- C7 counterexample: fuzzy normalization is not stable after one pass.
For the input "sai.nt" every output is "saint" (removing the period
creates a new occurrence of the key "saint"), and re-running the
normalization on the output "saint" yields "st", a different string. -/
theorem normalize_not_idempotent_cx :
    fuzzyCandidates extPlain ["sai.nt"] = ["saint", "saint", "saint", "saint"] ∧
    fuzzyCandidates extPlain ["saint"] = ["st", "st", "st", "st"] ∧
    ("st" : String) ≠ "saint" :=
  ⟨by decide, by decide, by decide⟩

/-- The substitution pass leaves a string without any key occurrence
unchanged. -/
theorem applySubsts_keyfree (y : String)
    (hk : ∀ kv ∈ substitutions, strIn kv.1 y = false) : applySubsts y = y := by
  have h1 := hk ("saint", "st") (by simp [substitutions])
  have h2 := hk (".", "") (by simp [substitutions])
  have h3 := hk ("-", " ") (by simp [substitutions])
  have h4 := hk (String.singleton (Char.ofNat 96), String.singleton (Char.ofNat 39))
    (by simp [substitutions])
  simp [applySubsts, substitutions, h1, h2, h3, h4]

/-- C7 amended: re-running the fuzzy normalization on one of its own
outputs returns that output (four-fold, one copy per fold branch)
provided the output is fixed by the case and diacritic folds and contains
no substitution key as a substring; without the key-freeness proviso the
claim fails, because removing "." can create a new "saint" occurrence. -/
theorem normalize_stable_keyfree (e : ExtLib) (x y : String)
    (hy : y ∈ fuzzyCandidates e [x])
    (hl : e.lower y = y) (hcf : e.casefold y = y) (hud : e.unidecode y = y)
    (hk : ∀ kv ∈ substitutions, strIn kv.1 y = false) :
    fuzzyCandidates e [y] = [y, y, y, y] := by
  simp [fuzzyCandidates, hl, hcf, hud, applySubsts_keyfree y hk]

/-- Witness for the amended C7 on a key-free output. -/
theorem normalize_stable_keyfree_w :
    "abc" ∈ fuzzyCandidates extPlain ["abc"] ∧
    fuzzyCandidates extPlain ["abc"] = ["abc", "abc", "abc", "abc"] :=
  ⟨by decide,
   normalize_stable_keyfree extPlain "abc" "abc" (by decide) (by decide)
     (by decide) (by decide) (by decide)⟩

/-- C8 counterexample: a cell with the reference value absent and the
scraped value present makes `compare_data` raise the `TypeError` of
`nan + str`, so the comparison is not total. -/
theorem compare_typeerror_cx :
    runCell extPlain none (some "x") = Except.error PyError.typeError := by
  decide

/-- Whether an `Except` result is a success. -/
def exceptOk {ε α : Type} : Except ε α → Bool
  | .ok _ => true
  | .error _ => false

/-- The per-cell branch chain never raises unless the reference value is
absent while the scraped value is present. -/
theorem cellStep1_total (e : ExtLib) (ugv wpv : Option String) (c0 f0 : Bool)
    (hnm : ugv = none → wpv = none) :
    ∃ b, cellStep1 e ugv wpv c0 f0 = Except.ok b := by
  cases wpv with
  | none =>
    cases ugv with
    | none => exact ⟨_, rfl⟩
    | some u => exact ⟨_, rfl⟩
  | some w =>
    cases ugv with
    | none => exact absurd (hnm rfl) (by simp)
    | some u =>
      show ∃ b, (if c0 then Except.ok (c0, f0)
        else if exactTier e u w then Except.ok (true, f0)
        else if fuzzyTier e u w then Except.ok (c0, true)
        else Except.ok (c0, f0)) = Except.ok b
      by_cases hc : c0 = true
      · exact ⟨(c0, f0), if_pos hc⟩
      · by_cases hE : exactTier e u w = true
        · exact ⟨(true, f0), by rw [if_neg hc, if_pos hE]⟩
        · by_cases hF : fuzzyTier e u w = true
          · exact ⟨(c0, true), by rw [if_neg hc, if_neg hE, if_pos hF]⟩
          · exact ⟨(c0, f0), by rw [if_neg hc, if_neg hE, if_neg hF]⟩

/-- C8 amended: on identically-labeled tables with no cell that has the
reference value absent and the scraped value present, `compare_data`
raises no exception. -/
theorem compare_total_no_halfmissing (e : ExtLib)
    (ug wp : DataFrame (Option String))
    (h1 : ug.index = wp.index) (h2 : ug.columns = wp.columns)
    (hcells : ∀ c k, ug.cells c k = none → wp.cells c k = none) :
    exceptOk (compare_data e ug wp) = true := by
  rw [compare_data, if_pos ⟨h1, h2⟩]
  have hstep : ∀ rs p, p ∈ cellList ug.index ug.columns →
      (rs.ug_data = ug ∧ rs.wp_data = wp) →
      ∃ rs2, cellBodyS e rs p = Except.ok rs2 ∧
        (rs2.ug_data = ug ∧ rs2.wp_data = wp) := by
    intro rs p _ hPrs
    have hnm : rs.ug_data.cells p.1 p.2 = none →
        rs.wp_data.cells p.1 p.2 = none := by
      rw [hPrs.1, hPrs.2]
      exact hcells p.1 p.2
    obtain ⟨⟨b1, b2⟩, hb⟩ := cellStep1_total e (rs.ug_data.cells p.1 p.2)
      (rs.wp_data.cells p.1 p.2) (rs.cmp_data.cells p.1 p.2)
      (rs.cmp_data_fuzzy.cells p.1 p.2) hnm
    have hco : cellOutcome e (rs.ug_data.cells p.1 p.2)
        (rs.wp_data.cells p.1 p.2) (rs.cmp_data.cells p.1 p.2)
        (rs.cmp_data_fuzzy.cells p.1 p.2) =
          Except.ok (b1, if b1 then true else b2) := by
      rw [cellOutcome, hb]
      rfl
    have hbody : cellBodyS e rs p = Except.ok
        { rs with
          cmp_data :=
            { rs.cmp_data with cells := setCell rs.cmp_data.cells p.1 p.2 b1 }
          cmp_data_fuzzy :=
            { rs.cmp_data_fuzzy with
              cells := setCell rs.cmp_data_fuzzy.cells p.1 p.2
                (if b1 then true else b2) } } := by
      unfold cellBodyS
      rw [hco]
    exact ⟨_, hbody, hPrs.1, hPrs.2⟩
  obtain ⟨fin, hfin, -⟩ := foldlM_total
    (fun rs => rs.ug_data = ug ∧ rs.wp_data = wp)
    (cellBodyS e) (cellList ug.index ug.columns) (initRunState ug wp)
    hstep ⟨rfl, rfl⟩
  unfold compareRun
  rw [hfin]
  rfl

/-- Witness for the amended C8 on tables with no half-missing cell. -/
theorem compare_total_no_halfmissing_w :
    exceptOk (compare_data extPlain (oneCellDf (some "a")) (oneCellDf (some "b")))
      = true :=
  compare_total_no_halfmissing extPlain (oneCellDf (some "a"))
    (oneCellDf (some "b")) rfl rfl (fun c k h => by simp [oneCellDf] at h)

/-- C9: the double loop never writes into the two input tables: whenever
it terminates normally, the reference and scraped tables of the final state
are the ones it started from, all writes having gone to the two freshly
created output tables. -/
theorem compare_preserves_inputs (e : ExtLib)
    (ug wp : DataFrame (Option String)) (fin : RunState)
    (h1 : ug.index = wp.index) (h2 : ug.columns = wp.columns)
    (h : compareRun e ug wp = Except.ok fin) :
    fin.ug_data = ug ∧ fin.wp_data = wp := by
  rw [compareRun] at h
  have hio := run_inputs e (cellList ug.index ug.columns) (initRunState ug wp) fin h
  exact ⟨hio.1, hio.2⟩

/-- Witness for C9 on a concrete run. -/
theorem compare_preserves_inputs_w :
    (compareRun extPlain (oneCellDf (some "z")) (oneCellDf (some "z"))).map
        (fun rs => rs.ug_data.cells "r" "k") = Except.ok (some "z") ∧
    (compareRun extPlain (oneCellDf (some "z")) (oneCellDf (some "z"))).map
        (fun rs => rs.wp_data.cells "r" "k") = Except.ok (some "z") := by
  have hex : ∃ rs, compareRun extPlain (oneCellDf (some "z"))
      (oneCellDf (some "z")) = Except.ok rs := ⟨_, rfl⟩
  obtain ⟨rs, h⟩ := hex
  have hm := compare_preserves_inputs extPlain (oneCellDf (some "z"))
    (oneCellDf (some "z")) rs rfl rfl h
  rw [h]
  constructor
  · simp [Except.map, hm.1, oneCellDf]
  · simp [Except.map, hm.2, oneCellDf]
